import Mathlib

/-!
Shallow embedding of the CHIP-8 interpreter in src/chip8.c.

Modelling conventions:
* Machine integers are Nat.  Writes through a C variable of width w are
  reduced mod 2^w exactly where the C assignment truncates (uint8 registers,
  uint16 PC and I).  Reads of already-stored bytes are used as-is.
* C arrays (ram, V, stack, display, keypad) are total functions from Nat;
  an out-of-bounds C access (undefined behavior) corresponds to reading or
  writing the total function outside the array bounds.
* The chip8_t fields state, rom_name and inst (decode scratch) and all SDL
  host state are omitted: no claim mentions them.
* rand() is modelled by a Nat parameter threaded into each cycle.
-/

namespace Chip8

/-- Pointwise update of a Nat-valued array modelled as a function. -/
def updFn (f : Nat → Nat) (i v : Nat) : Nat → Nat :=
  fun j => if j = i then v else f j

/-- Pointwise update of a Bool-valued array modelled as a function. -/
def updB (f : Nat → Bool) (i : Nat) (v : Bool) : Nat → Bool :=
  fun j => if j = i then v else f j

/-- Wrapping subtraction: (a - b) mod m, total on Nat (C unsigned semantics). -/
def wrapSub (m a b : Nat) : Nat := (a + (m - b % m)) % m

/-- The config_t struct; defaults from set_config_from_args. -/
structure Config where
  windowWidth : Nat
  windowHeight : Nat
  fgColor : Nat
  bgColor : Nat
  scaleFactor : Nat
  pixelOutline : Bool
  instsPerSecond : Nat
  squareWaveFreq : Nat
  audioSampleRate : Nat
  volume : Nat

/-- Defaults set by set_config_from_args (the argv loop ignores every argument). -/
def defaultConfig : Config :=
  { windowWidth := 64, windowHeight := 32, fgColor := 0xFFFFFFFF,
    bgColor := 0x000000FF, scaleFactor := 20, pixelOutline := true,
    instsPerSecond := 700, squareWaveFreq := 440, audioSampleRate := 44100,
    volume := 3000 }

/-- The guest-visible part of chip8_t.  stack_ptr is modelled as the offset
sp from stack[0]. -/
structure Machine where
  ram : Nat → Nat
  display : Nat → Bool
  stack : Nat → Nat
  sp : Nat
  V : Nat → Nat
  I : Nat
  PC : Nat
  delayTimer : Nat
  soundTimer : Nat
  keypad : Nat → Bool

/-- Write register V[i]. -/
def setV (s : Machine) (i v : Nat) : Machine :=
  { s with V := updFn s.V i v }

/-- Fetch: opcode = ram[PC] shl 8 or ram[PC+1]. -/
def fetchOp (s : Machine) : Nat :=
  (s.ram s.PC) <<< 8 ||| s.ram (s.PC + 1)

/-- Inner sprite loop of the DXYN case: for (int8_t j = 7; j >= 0; j--).
The first argument of the recursion is j+1 (remaining bits); X is X_coord.
Each step tests sprite_data and (1 shl j), sets the carry to 1 on collision,
XORs the display pixel, and breaks when ++X_coord >= w. -/
def drawRow (w sd Y : Nat) : Nat → Nat → (Nat → Bool) → Nat → ((Nat → Bool) × Nat)
  | 0, _, disp, vf => (disp, vf)
  | j + 1, X, disp, vf =>
    let sbit : Bool := sd &&& (1 <<< j) != 0
    let pix := disp (Y * w + X)
    let vf2 := if sbit && pix then 1 else vf
    let disp2 := updB disp (Y * w + X) (xor pix sbit)
    if X + 1 ≥ w then (disp2, vf2)
    else drawRow w sd Y j (X + 1) disp2 vf2

/-- Outer sprite loop of the DXYN case: for (uint8_t i = 0; i < N; i++).
The first Nat argument is the number of remaining rows, addr is I+i, and the
loop breaks when ++Y_coord >= h after drawing a row. -/
def drawRows (w h : Nat) (ram : Nat → Nat) (ogX : Nat) :
    Nat → Nat → Nat → (Nat → Bool) → Nat → ((Nat → Bool) × Nat)
  | 0, _, _, disp, vf => (disp, vf)
  | n + 1, addr, Y, disp, vf =>
    let r := drawRow w (ram addr) Y 8 ogX disp vf
    if Y + 1 ≥ h then r
    else drawRows w h ram ogX n (addr + 1) (Y + 1) r.1 r.2

/-- Case 0x00 of the opcode switch: 00E0 clear screen, 00EE return (pop with
no underflow check: *--stack_ptr). -/
def exec0 (op : Nat) (s : Machine) : Machine :=
  let nn := op &&& 0xFF
  if nn = 0xE0 then { s with display := fun _ => false }
  else if nn = 0xEE then { s with sp := s.sp - 1, PC := s.stack (s.sp - 1) }
  else s

/-- Case 0x08 of the opcode switch (register-register ALU ops).
The source writes V[0xF] first in 8XY5/6/7/E, writes it only on carry in
8XY4, and the second write reads the V file after the first. -/
def exec8 (op : Nat) (s : Machine) : Machine :=
  let x := (op >>> 8) &&& 0xF
  let y := (op >>> 4) &&& 0xF
  let n := op &&& 0xF
  if n = 0x0 then setV s x (s.V y)
  else if n = 0x1 then setV s x (s.V x ||| s.V y)
  else if n = 0x2 then setV s x (s.V x &&& s.V y)
  else if n = 0x3 then setV s x (s.V x ^^^ s.V y)
  else if n = 0x4 then
    -- if ((uint16_t)(V[X] + V[Y]) > 255) V[0xF] = 1;  then V[X] += V[Y];
    let s1 := if (s.V x + s.V y) % 65536 > 255 then setV s 0xF 1 else s
    setV s1 x ((s1.V x + s1.V y) % 256)
  else if n = 0x5 then
    let s1 := setV s 0xF (if s.V x ≥ s.V y then 1 else 0)
    setV s1 x (wrapSub 256 (s1.V x) (s1.V y))
  else if n = 0x6 then
    let s1 := setV s 0xF (s.V x &&& 1)
    setV s1 x (s1.V x >>> 1)
  else if n = 0x7 then
    let s1 := setV s 0xF (if s.V x ≤ s.V y then 1 else 0)
    setV s1 x (wrapSub 256 (s1.V y) (s1.V x))
  else if n = 0xE then
    let s1 := setV s 0xF ((s.V x >>> 7) &&& 1)
    setV s1 x ((s1.V x <<< 1) % 256)
  else s

/-- Case 0x0D: the sprite draw.  X/Y start coordinates wrap (mod width and
height); V[0xF] starts at 0 and ends as the collision flag. -/
def execD (cfg : Config) (op : Nat) (s : Machine) : Machine :=
  let x := (op >>> 8) &&& 0xF
  let y := (op >>> 4) &&& 0xF
  let n := op &&& 0xF
  let X0 := s.V x % cfg.windowWidth
  let Y0 := s.V y % cfg.windowHeight
  let r := drawRows cfg.windowWidth cfg.windowHeight s.ram X0 n s.I Y0 s.display 0
  { s with display := r.1, V := updFn s.V 0xF r.2 }

/-- Case 0x0E: SKP/SKNP.  The keypad index is V[x] with no masking, exactly
as in the source (chip8->keypad[chip8->V[chip8->inst.X]]). -/
def execE (op : Nat) (s : Machine) : Machine :=
  let x := (op >>> 8) &&& 0xF
  let nn := op &&& 0xFF
  if nn = 0x9E then
    if s.keypad (s.V x) then { s with PC := (s.PC + 2) % 65536 } else s
  else if nn = 0xA1 then
    if !(s.keypad (s.V x)) then { s with PC := (s.PC + 2) % 65536 } else s
  else s

/-- The FX0A keypad scan: the first held key in index order 0..15. -/
def firstKey (kp : Nat → Bool) : Option Nat :=
  (List.range 16).find? fun i => kp i

/-- Case 0x0F of the opcode switch.  The 0x0A case in the source has no
break statement, so after the wait-for-key logic control falls through into
the 0x1E case and I += V[x] is executed as well. -/
def execF (op : Nat) (s : Machine) : Machine :=
  let x := (op >>> 8) &&& 0xF
  let nn := op &&& 0xFF
  if nn = 0x0A then
    let s1 :=
      match firstKey s.keypad with
      | some k => setV s x k
      | none => { s with PC := wrapSub 65536 s.PC 2 }
    { s1 with I := (s1.I + s1.V x) % 65536 }
  else if nn = 0x1E then { s with I := (s.I + s.V x) % 65536 }
  else if nn = 0x15 then { s with delayTimer := s.V x }
  else if nn = 0x07 then setV s x s.delayTimer
  else if nn = 0x18 then { s with soundTimer := s.V x }
  else if nn = 0x29 then { s with I := (s.V x * 5) % 65536 }
  else if nn = 0x33 then
    let b := s.V x
    let r3 := updFn (updFn (updFn s.ram (s.I + 2) (b % 10)) (s.I + 1) ((b / 10) % 10)) s.I ((b / 10) / 10)
    { s with ram := r3 }
  else if nn = 0x55 then
    { s with ram := (List.range (x + 1)).foldl (fun r i => updFn r (s.I + i) (s.V i)) s.ram }
  else if nn = 0x65 then
    { s with V := (List.range (x + 1)).foldl (fun v i => updFn v i (s.ram (s.I + i))) s.V }
  else s

/-- The opcode switch of emulate_instruction, dispatching on the high
nibble.  PC has already been advanced past the opcode. -/
def execute (cfg : Config) (rnd op : Nat) (s : Machine) : Machine :=
  let nib := (op >>> 12) &&& 0xF
  if nib = 0x0 then exec0 op s
  else if nib = 0x1 then { s with PC := op &&& 0xFFF }
  else if nib = 0x2 then
    -- *stack_ptr++ = PC; PC = NNN;  (no overflow check)
    { s with stack := updFn s.stack s.sp s.PC, sp := s.sp + 1, PC := op &&& 0xFFF }
  else if nib = 0x3 then
    if s.V ((op >>> 8) &&& 0xF) = op &&& 0xFF then { s with PC := (s.PC + 2) % 65536 } else s
  else if nib = 0x4 then
    if s.V ((op >>> 8) &&& 0xF) ≠ op &&& 0xFF then { s with PC := (s.PC + 2) % 65536 } else s
  else if nib = 0x5 then
    if op &&& 0xF ≠ 0 then s
    else if s.V ((op >>> 8) &&& 0xF) = s.V ((op >>> 4) &&& 0xF) then
      { s with PC := (s.PC + 2) % 65536 }
    else s
  else if nib = 0x6 then setV s ((op >>> 8) &&& 0xF) (op &&& 0xFF)
  else if nib = 0x7 then
    setV s ((op >>> 8) &&& 0xF) ((s.V ((op >>> 8) &&& 0xF) + (op &&& 0xFF)) % 256)
  else if nib = 0x8 then exec8 op s
  else if nib = 0x9 then
    if s.V ((op >>> 8) &&& 0xF) ≠ s.V ((op >>> 4) &&& 0xF) then
      { s with PC := (s.PC + 2) % 65536 }
    else s
  else if nib = 0xA then { s with I := op &&& 0xFFF }
  else if nib = 0xB then { s with PC := (s.V 0 + (op &&& 0xFFF)) % 65536 }
  else if nib = 0xC then setV s ((op >>> 8) &&& 0xF) ((rnd % 256) &&& (op &&& 0xFF))
  else if nib = 0xD then execD cfg op s
  else if nib = 0xE then execE op s
  else if nib = 0xF then execF op s
  else s

/-- One fetch-decode-execute step: fetch at PC, advance PC by 2 (uint16),
then run the opcode switch. -/
def emulateInstruction (cfg : Config) (rnd : Nat) (s : Machine) : Machine :=
  execute cfg rnd (fetchOp s) { s with PC := (s.PC + 2) % 65536 }

/-- The per-frame instruction batch of main:
for (i = 0; i < config.insts_per_second / 60; i++) emulate_instruction(...).
The rnd stream supplies one rand() value per cycle. -/
def runCycles (cfg : Config) (rnd : Nat → Nat) : Nat → Machine → Machine
  | 0, s => s
  | n + 1, s => runCycles cfg (fun i => rnd (i + 1)) n (emulateInstruction cfg (rnd 0) s)

/-- The number of guest cycles the frame loop runs per frame
(C integer division, which floors). -/
def cyclesPerFrame (cfg : Config) : Nat := cfg.instsPerSecond / 60

/-- update_timers: each counter decremented while positive (the audio
pause toggle is host state and is omitted). -/
def updateTimers (s : Machine) : Machine :=
  let s1 := if s.delayTimer > 0 then { s with delayTimer := s.delayTimer - 1 } else s
  if s1.soundTimer > 0 then { s1 with soundTimer := s1.soundTimer - 1 } else s1

/-- Guest-state effect of one frame-loop iteration while RUNNING:
the cycle batch, then update_timers (input polling and rendering are host
I/O and leave guest state untouched apart from keypad/state). -/
def emulateFrame (cfg : Config) (rnd : Nat → Nat) (s : Machine) : Machine :=
  updateTimers (runCycles cfg rnd (cyclesPerFrame cfg) s)

/-- The 80-byte hex font copied to ram[0..80) by init_chip8. -/
def font : List Nat :=
  [0xF0, 0x90, 0x90, 0x90, 0xF0,
   0x20, 0x60, 0x20, 0x20, 0x70,
   0xF0, 0x10, 0xF0, 0x80, 0xF0,
   0xF0, 0x10, 0xF0, 0x10, 0xF0,
   0x90, 0x90, 0xF0, 0x10, 0x10,
   0xF0, 0x80, 0xF0, 0x10, 0xF0,
   0xF0, 0x80, 0xF0, 0x90, 0xF0,
   0xF0, 0x10, 0x20, 0x40, 0x40,
   0xF0, 0x90, 0xF0, 0x90, 0xF0,
   0xF0, 0x90, 0xF0, 0x10, 0xF0,
   0xF0, 0x90, 0xF0, 0x90, 0x90,
   0xE0, 0x90, 0xE0, 0x90, 0xE0,
   0xF0, 0x80, 0x80, 0x80, 0xF0,
   0xE0, 0x90, 0x90, 0x90, 0xE0,
   0xF0, 0x80, 0xF0, 0x80, 0xF0,
   0xF0, 0x80, 0xF0, 0x80, 0x80]

/-- The machine built by a successful init_chip8 run: chip8_t is
zero-initialized in main, the font is copied to ram[0..80), the ROM bytes
to ram[0x200..0x200+L), PC = 0x200, stack_ptr = stack[0]. -/
def mkLoaded (rom : List Nat) : Machine :=
  { ram := fun a =>
      if 0x200 ≤ a ∧ a < 0x200 + rom.length then rom.getD (a - 0x200) 0
      else if a < 80 then font.getD a 0
      else 0,
    display := fun _ => false,
    stack := fun _ => 0, sp := 0,
    V := fun _ => 0, I := 0, PC := 0x200,
    delayTimer := 0, soundTimer := 0,
    keypad := fun _ => false }

/-- init_chip8 on a ROM image of the given bytes.  The size check rejects
rom_size > sizeof ram - 0x200 = 3584; then
fread(&ram[0x200], rom_size, 1, rom) must return 1, which fails when
rom_size = 0 (fread returns 0 when its size argument is 0). -/
def initChip8 (rom : List Nat) : Option Machine :=
  if rom.length > 4096 - 0x200 then none
  else if rom.length = 0 then none
  else some (mkLoaded rom)

/-! Specification-side machinery for reasoning about the sprite draw: the
draw loops are re-expressed as a left fold over an explicit list of
(framebuffer index, sprite bit) pairs, which makes the double-XOR argument
a statement about folds over lists with distinct indices. -/

/-- Replay a list of (index, bit) draw events against a framebuffer and a
carry value, with exactly the per-pixel operation of the draw loops. -/
def applyPixels : List (Nat × Bool) → ((Nat → Bool) × Nat) → ((Nat → Bool) × Nat)
  | [], st => st
  | pb :: rest, st =>
      applyPixels rest
        (updB st.1 pb.1 (xor (st.1 pb.1) pb.2), if pb.2 && st.1 pb.1 then 1 else st.2)

/-- The (index, bit) pairs visited by one drawRow call, in visit order. -/
def rowPix (w sd Y : Nat) : Nat → Nat → List (Nat × Bool)
  | 0, _ => []
  | j + 1, X =>
      (Y * w + X, sd &&& (1 <<< j) != 0) ::
        (if X + 1 ≥ w then [] else rowPix w sd Y j (X + 1))

/-- The (index, bit) pairs visited by a drawRows call, in visit order. -/
def rowsPix (w h : Nat) (ram : Nat → Nat) (ogX : Nat) : Nat → Nat → Nat → List (Nat × Bool)
  | 0, _, _ => []
  | n + 1, addr, Y =>
      rowPix w (ram addr) Y 8 ogX ++
        (if Y + 1 ≥ h then [] else rowsPix w h ram ogX n (addr + 1) (Y + 1))

/-- The framebuffer indices of a draw-event list. -/
def keys (L : List (Nat × Bool)) : List Nat := L.map Prod.fst

/-- The sprite bit recorded for index q (false when q is not drawn). -/
def bitAt : List (Nat × Bool) → Nat → Bool
  | [], _ => false
  | pb :: rest, q => if q = pb.1 then pb.2 else bitAt rest q

/-! Concrete machines used to exhibit the divergences. -/

/-- Pre-state for 8XY4 with no carry and a stale flag: opcode 8124 at 0x200,
V1 = 2, V2 = 3, V15 = 1. -/
def c1state : Machine :=
  { ram := fun a => if a = 0x200 then 0x81 else if a = 0x201 then 0x24 else 0,
    display := fun _ => false, stack := fun _ => 0, sp := 0,
    V := fun r => if r = 1 then 2 else if r = 2 then 3 else if r = 0xF then 1 else 0,
    I := 0, PC := 0x200, delayTimer := 0, soundTimer := 0, keypad := fun _ => false }

/-- Pre-state for 8XY4 with x = 0xF and a carry: opcode 8F24 at 0x200,
V15 = 200, V2 = 100. -/
def c1stateF : Machine :=
  { ram := fun a => if a = 0x200 then 0x8F else if a = 0x201 then 0x24 else 0,
    display := fun _ => false, stack := fun _ => 0, sp := 0,
    V := fun r => if r = 0xF then 200 else if r = 2 then 100 else 0,
    I := 0, PC := 0x200, delayTimer := 0, soundTimer := 0, keypad := fun _ => false }

/-- Pre-state for FX0A with no key held: opcode F00A at 0x200, V0 = 7, I = 0. -/
def c2state : Machine :=
  { ram := fun a => if a = 0x200 then 0xF0 else if a = 0x201 then 0x0A else 0,
    display := fun _ => false, stack := fun _ => 0, sp := 0,
    V := fun r => if r = 0 then 7 else 0,
    I := 0, PC := 0x200, delayTimer := 0, soundTimer := 0, keypad := fun _ => false }

/-- Pre-state for a double draw over an already-lit framebuffer: opcode
D011 at 0x200 and again at 0x202, sprite byte 0x80 at I = 0x300, every
framebuffer pixel on. -/
def c3state : Machine :=
  { ram := fun a => if a = 0x200 then 0xD0 else if a = 0x201 then 0x11
      else if a = 0x202 then 0xD0 else if a = 0x203 then 0x11
      else if a = 0x300 then 0x80 else 0,
    display := fun _ => true, stack := fun _ => 0, sp := 0,
    V := fun _ => 0, I := 0x300, PC := 0x200, delayTimer := 0, soundTimer := 0,
    keypad := fun _ => false }

/-- A ROM of 17 chained CALL instructions: the opcode at 0x200 + 2i is
2NNN with NNN = 0x202 + 2i, so every executed instruction pushes. -/
def c4rom : List Nat :=
  [0x22, 0x02, 0x22, 0x04, 0x22, 0x06, 0x22, 0x08, 0x22, 0x0A, 0x22, 0x0C,
   0x22, 0x0E, 0x22, 0x10, 0x22, 0x12, 0x22, 0x14, 0x22, 0x16, 0x22, 0x18,
   0x22, 0x1A, 0x22, 0x1C, 0x22, 0x1E, 0x22, 0x20, 0x22, 0x22]

/-- Pre-state for CALL at full stack: opcode 2200 at 0x200, sp = 16. -/
def c4state : Machine :=
  { ram := fun a => if a = 0x200 then 0x22 else 0,
    display := fun _ => false, stack := fun _ => 0, sp := 16,
    V := fun _ => 0, I := 0, PC := 0x200, delayTimer := 0, soundTimer := 0,
    keypad := fun _ => false }

/-- Pre-state for FX29 with a value above 0xF: opcode F129 at 0x200,
V1 = 0x10. -/
def c8state : Machine :=
  { ram := fun a => if a = 0x200 then 0xF1 else if a = 0x201 then 0x29 else 0,
    display := fun _ => false, stack := fun _ => 0, sp := 0,
    V := fun r => if r = 1 then 0x10 else 0,
    I := 0, PC := 0x200, delayTimer := 0, soundTimer := 0, keypad := fun _ => false }

/-- Pre-state for EX9E with V1 = 0x10: opcode E19E at 0x200, key 0 held,
key 0x10 not held. -/
def c9state : Machine :=
  { ram := fun a => if a = 0x200 then 0xE1 else if a = 0x201 then 0x9E else 0,
    display := fun _ => false, stack := fun _ => 0, sp := 0,
    V := fun r => if r = 1 then 0x10 else 0,
    I := 0, PC := 0x200, delayTimer := 0, soundTimer := 0,
    keypad := fun k => k = 0 }

/-- Pre-state for a register store: opcode 6305 at 0x200 (LD V3, 0x05). -/
def c10state : Machine :=
  { ram := fun a => if a = 0x200 then 0x63 else if a = 0x201 then 0x05 else 0,
    display := fun a => a = 0, stack := fun _ => 0, sp := 0,
    V := fun _ => 0, I := 0, PC := 0x200, delayTimer := 0, soundTimer := 0,
    keypad := fun _ => false }

end Chip8

namespace Chip8

/-- C1: behavior of emulate_instruction at the failing inputs.  On a
non-carrying ADD V1,V2 (V1 = 2, V2 = 3, stale V15 = 1) the final V[0xF]
is still 1 instead of the claimed 0, because the source writes V[0xF] only
when a carry occurs; and on a carrying ADD VF,V2 (V15 = 200, V2 = 100) the
final V[0xF] is 101, not the carry bit 1, because the flag is written
before the sum rather than after it. -/
theorem c1_add_flag_code_behavior :
    (emulateInstruction defaultConfig 0 c1state).V 0xF = 1
    ∧ (emulateInstruction defaultConfig 0 c1state).V 1 = 5
    ∧ (emulateInstruction defaultConfig 0 c1stateF).V 0xF = 101 := by decide

/-- C2: behavior of emulate_instruction at the failing input.  With no key
held, FX0A rewinds PC to the instruction, but the missing break in the
source lets control fall through into the FX1E case, so I also gains V[x]:
from I = 0 and V0 = 7 the step ends with I = 7, not an unchanged machine. -/
theorem c2_wait_key_code_behavior :
    (emulateInstruction defaultConfig 0 c2state).PC = 0x200
    ∧ c2state.I = 0
    ∧ (emulateInstruction defaultConfig 0 c2state).I = 7 := by decide

/-- C4 counterexample: stack depth 17 is reachable.  Loading a ROM of 17
chained CALL instructions and running 17 cycles from reset leaves sp = 17:
the 17th CALL pushes with the stack already holding 16 return addresses,
with no error detected (in C this writes past the 16-entry array). -/
theorem c4_stack_overflow_cex :
    (initChip8 c4rom).map (fun m => (runCycles defaultConfig (fun _ => 0) 17 m).sp)
      = some 17 := by decide

/-- C4 amended: CALL stores PC at stack[sp] and increments sp with no
overflow check, and RET reads stack[sp-1] and decrements sp with no
underflow check; no bound on sp is enforced anywhere. -/
theorem c4_amended (cfg : Config) (rnd : Nat) (s : Machine) :
    ((fetchOp s >>> 12) &&& 0xF = 0x2 →
      (emulateInstruction cfg rnd s).sp = s.sp + 1
      ∧ (emulateInstruction cfg rnd s).stack s.sp = (s.PC + 2) % 65536
      ∧ (emulateInstruction cfg rnd s).PC = fetchOp s &&& 0xFFF)
    ∧ ((fetchOp s >>> 12) &&& 0xF = 0x0 → fetchOp s &&& 0xFF = 0xEE →
      (emulateInstruction cfg rnd s).sp = s.sp - 1
      ∧ (emulateInstruction cfg rnd s).PC = s.stack (s.sp - 1)) := by
  constructor
  · intro h
    simp [emulateInstruction, execute, h, updFn]
  · intro h hEE
    simp [emulateInstruction, execute, exec0, h, hEE]

/-- C4 witness: pushing at sp = 16 yields sp = 17. -/
theorem c4_amended_witness :
    (emulateInstruction defaultConfig 0 c4state).sp = 16 + 1
    ∧ (emulateInstruction defaultConfig 0 c4state).stack 16 = (0x200 + 2) % 65536
    ∧ (emulateInstruction defaultConfig 0 c4state).PC = fetchOp c4state &&& 0xFFF :=
  (c4_amended defaultConfig 0 c4state).1 (by decide)

/-- C5 counterexample: the frame loop runs insts_per_second / 60 cycles
with C integer division, which is 11 for the default 700, not the claimed
ceiling 12. -/
theorem c5_cycle_count_cex :
    cyclesPerFrame defaultConfig = 11
    ∧ (defaultConfig.instsPerSecond + 59) / 60 = 12
    ∧ ¬ cyclesPerFrame defaultConfig = 12 := by decide

/-- C5 amended: in a Running frame the loop executes exactly
floor(insts_per_second / 60) guest cycles before ticking the counters;
with the default 700 instructions per second that is 11 cycles. -/
theorem c5_frame_cycles (rnd : Nat → Nat) (s : Machine) :
    emulateFrame defaultConfig rnd s = updateTimers (runCycles defaultConfig rnd 11 s)
    ∧ (∀ cfg : Config, cyclesPerFrame cfg = cfg.instsPerSecond / 60) :=
  ⟨rfl, fun _ => rfl⟩

/-- C6 counterexample: PC parity is not an invariant for every program
image.  The two-byte ROM 12 01 (JP 0x201) is loaded at reset, and one
step after reset the machine enters its next fetch with PC = 0x201, odd. -/
theorem c6_pc_parity_cex :
    (initChip8 [0x12, 0x01]).map (fun m => (emulateInstruction defaultConfig 0 m).PC)
      = some 0x201
    ∧ 0x201 % 2 = 1 := by decide

/-- C7 counterexample: a 3600-byte ROM is within the claimed 3840-byte
limit but init_chip8 rejects it (the real limit is 4096 - 0x200 = 3584),
and the empty ROM, claimed to succeed, is also rejected because
fread with size 0 returns 0. -/
theorem c7_rom_load_cex :
    (initChip8 (List.replicate 3600 0)).isNone = true
    ∧ 3600 ≤ 3840
    ∧ (initChip8 []).isNone = true := by
  refine ⟨?_, by norm_num, by decide⟩
  unfold initChip8
  simp only [List.length_replicate]
  norm_num

/-- C7 amended: ROM loading succeeds exactly for lengths 1..3584; on
success the bytes are copied to [0x200, 0x200+L), the 80 font bytes sit at
[0, 80), and every other RAM byte is at its reset value 0. -/
theorem c7_amended (rom : List Nat) :
    ((initChip8 rom).isSome = true ↔ 1 ≤ rom.length ∧ rom.length ≤ 3584)
    ∧ (1 ≤ rom.length → rom.length ≤ 3584 → initChip8 rom = some (mkLoaded rom))
    ∧ (mkLoaded rom).PC = 0x200
    ∧ (∀ a, 0x200 ≤ a → a < 0x200 + rom.length →
        (mkLoaded rom).ram a = rom.getD (a - 0x200) 0)
    ∧ (∀ a, a < 80 → (mkLoaded rom).ram a = font.getD a 0)
    ∧ (∀ a, 80 ≤ a → a < 0x200 → (mkLoaded rom).ram a = 0)
    ∧ (∀ a, 0x200 + rom.length ≤ a → (mkLoaded rom).ram a = 0) := by
  refine ⟨?_, ?_, rfl, ?_, ?_, ?_, ?_⟩
  · unfold initChip8
    split_ifs with h1 h2 <;> simp <;> omega
  · intro h1 h2
    unfold initChip8
    split_ifs with g1 g2
    · omega
    · omega
    · rfl
  · intro a ha1 ha2
    simp only [mkLoaded]
    rw [if_pos ⟨ha1, ha2⟩]
  · intro a ha
    simp only [mkLoaded]
    rw [if_neg (by omega), if_pos ha]
  · intro a ha1 ha2
    simp only [mkLoaded]
    rw [if_neg (by omega), if_neg (by omega)]
  · intro a ha
    simp only [mkLoaded]
    rw [if_neg (by omega)]
    split_ifs with hf
    · omega
    · rfl

/-- C7 witness: loading the one-byte ROM AB succeeds and the RAM layout is
as described. -/
theorem c7_amended_witness :
    (initChip8 [0xAB]).isSome = true
    ∧ (mkLoaded [0xAB]).ram 0x200 = 0xAB
    ∧ (mkLoaded [0xAB]).ram 0 = 0xF0
    ∧ (mkLoaded [0xAB]).ram 0x1FF = 0
    ∧ (mkLoaded [0xAB]).ram 0x201 = 0 :=
  ⟨((c7_amended [0xAB]).1).mpr (by decide),
   by have h := (c7_amended [0xAB]).2.2.2.1 0x200 (by decide) (by decide); simpa using h,
   by have h := (c7_amended [0xAB]).2.2.2.2.1 0 (by decide); simpa using h,
   (c7_amended [0xAB]).2.2.2.2.2.1 0x1FF (by decide) (by decide),
   (c7_amended [0xAB]).2.2.2.2.2.2 0x201 (by decide)⟩

/-- C8 counterexample: with V1 = 0x10 the opcode F129 sets I to 80, while
the claimed masked result (V1 and 0xF) * 5 is 0. -/
theorem c8_font_addr_cex :
    (emulateInstruction defaultConfig 0 c8state).I = 80
    ∧ (c8state.V 1 &&& 0xF) * 5 = 0 := by decide

/-- C8 amended: FX29 sets I to V[x] * 5 (reduced mod 2^16 by the uint16
store) with no masking of the operand, so the result is a font glyph
address only when V[x] is at most 0xF. -/
theorem c8_amended (cfg : Config) (rnd : Nat) (s : Machine)
    (h : (fetchOp s >>> 12) &&& 0xF = 0xF) (h2 : fetchOp s &&& 0xFF = 0x29) :
    (emulateInstruction cfg rnd s).I = (s.V ((fetchOp s >>> 8) &&& 0xF) * 5) % 65536 := by
  simp [emulateInstruction, execute, execF, h, h2]

/-- C8 witness: the amended statement at the concrete F129 machine. -/
theorem c8_amended_witness :
    (emulateInstruction defaultConfig 0 c8state).I
      = (c8state.V ((fetchOp c8state >>> 8) &&& 0xF) * 5) % 65536
    ∧ (c8state.V ((fetchOp c8state >>> 8) &&& 0xF) * 5) % 65536 = 80 :=
  ⟨c8_amended defaultConfig 0 c8state (by decide) (by decide), by decide⟩

/-- C9 amended: SKP and SKNP consult keypad[V[x]] with no masking of the
index, so the skip decision follows the raw register value (for
V[x] > 15 the C array access is out of bounds; the model reads the total
keypad function there). -/
theorem c9_amended (cfg : Config) (rnd : Nat) (s : Machine)
    (hE : (fetchOp s >>> 12) &&& 0xF = 0xE) :
    (fetchOp s &&& 0xFF = 0x9E →
      (emulateInstruction cfg rnd s).PC =
        (if s.keypad (s.V ((fetchOp s >>> 8) &&& 0xF)) then ((s.PC + 2) % 65536 + 2) % 65536
         else (s.PC + 2) % 65536))
    ∧ (fetchOp s &&& 0xFF = 0xA1 →
      (emulateInstruction cfg rnd s).PC =
        (if s.keypad (s.V ((fetchOp s >>> 8) &&& 0xF)) then (s.PC + 2) % 65536
         else ((s.PC + 2) % 65536 + 2) % 65536)) := by
  constructor
  · intro h
    by_cases hk : s.keypad (s.V ((fetchOp s >>> 8) &&& 0xF))
    · simp [emulateInstruction, execute, execE, hE, h, hk]
    · simp [emulateInstruction, execute, execE, hE, h, hk]
  · intro h
    by_cases hk : s.keypad (s.V ((fetchOp s >>> 8) &&& 0xF))
    · simp [emulateInstruction, execute, execE, hE, h, hk]
    · simp [emulateInstruction, execute, execE, hE, h, hk]

/-- C9 counterexample: with V1 = 0x10 and only key 0 held, E19E does not
skip (keypad[0x10] is consulted and is up), although the claimed masked
lookup keypad[V1 and 0xF] = keypad[0] is held. -/
theorem c9_skip_mask_cex :
    (emulateInstruction defaultConfig 0 c9state).PC = 0x202
    ∧ c9state.keypad (c9state.V 1 &&& 0xF) = true := by decide

/-- C9 witness: the amended statement at the concrete E19E machine. -/
theorem c9_amended_witness :
    (emulateInstruction defaultConfig 0 c9state).PC =
      (if c9state.keypad (c9state.V ((fetchOp c9state >>> 8) &&& 0xF))
       then ((c9state.PC + 2) % 65536 + 2) % 65536
       else (c9state.PC + 2) % 65536) :=
  (c9_amended defaultConfig 0 c9state (by decide)).1 (by decide)

end Chip8

namespace Chip8

/-- The 8XYN dispatch never changes PC. -/
theorem exec8_PC (op : Nat) (t : Machine) : (exec8 op t).PC = t.PC := by
  simp only [exec8]
  split_ifs <;> rfl

/-- Outside of 00E0, the 0x0 dispatch leaves the framebuffer alone. -/
theorem exec0_display (op : Nat) (t : Machine) (hC : op &&& 0xFF ≠ 0xE0) :
    (exec0 op t).display = t.display := by
  simp only [exec0]
  split_ifs with hE hEE
  · exact absurd hE hC
  · rfl
  · rfl

/-- The 8XYN dispatch leaves the framebuffer alone. -/
theorem exec8_display (op : Nat) (t : Machine) : (exec8 op t).display = t.display := by
  simp only [exec8]
  split_ifs <;> rfl

/-- The EXNN dispatch leaves the framebuffer alone. -/
theorem execE_display (op : Nat) (t : Machine) : (execE op t).display = t.display := by
  simp only [execE]
  split_ifs <;> rfl

/-- The FXNN dispatch leaves the framebuffer alone. -/
theorem execF_display (op : Nat) (t : Machine) : (execF op t).display = t.display := by
  simp only [execF]
  split_ifs <;> first | rfl | (cases firstKey t.keypad <;> rfl)

/-- The EXNN dispatch preserves PC parity. -/
theorem execE_PC (op : Nat) (t : Machine) (h0 : t.PC % 2 = 0) :
    (execE op t).PC % 2 = 0 := by
  simp only [execE]
  split_ifs <;> (try dsimp only) <;> omega

/-- The FXNN dispatch preserves PC parity: only the FX0A rewind by 2
touches PC, and a rewind by 2 mod 65536 keeps it even. -/
theorem execF_PC (op : Nat) (t : Machine) (h0 : t.PC % 2 = 0) :
    (execF op t).PC % 2 = 0 := by
  simp only [execF]
  split_ifs <;> try exact h0
  cases firstKey t.keypad
  · dsimp only [wrapSub]
    omega
  · dsimp only [setV]
    omega

/-- Every branch of the opcode switch except 00E0 and DXYN leaves the
framebuffer alone. -/
theorem execute_display_eq (cfg : Config) (rnd op : Nat) (t : Machine)
    (hD : (op >>> 12) &&& 0xF ≠ 0xD)
    (hC : ¬((op >>> 12) &&& 0xF = 0x0 ∧ op &&& 0xFF = 0xE0)) :
    (execute cfg rnd op t).display = t.display := by
  have hlt : (op >>> 12) &&& 0xF < 16 :=
    lt_of_le_of_lt Nat.and_le_right (by norm_num)
  have hcases : (op >>> 12) &&& 0xF = 0 ∨ (op >>> 12) &&& 0xF = 1
      ∨ (op >>> 12) &&& 0xF = 2 ∨ (op >>> 12) &&& 0xF = 3
      ∨ (op >>> 12) &&& 0xF = 4 ∨ (op >>> 12) &&& 0xF = 5
      ∨ (op >>> 12) &&& 0xF = 6 ∨ (op >>> 12) &&& 0xF = 7
      ∨ (op >>> 12) &&& 0xF = 8 ∨ (op >>> 12) &&& 0xF = 9
      ∨ (op >>> 12) &&& 0xF = 10 ∨ (op >>> 12) &&& 0xF = 11
      ∨ (op >>> 12) &&& 0xF = 12 ∨ (op >>> 12) &&& 0xF = 13
      ∨ (op >>> 12) &&& 0xF = 14 ∨ (op >>> 12) &&& 0xF = 15 := by omega
  rcases hcases with h|h|h|h|h|h|h|h|h|h|h|h|h|h|h|h
  · simp only [execute, h]
    norm_num
    exact exec0_display op t (fun hE => hC ⟨h, hE⟩)
  · simp [execute, h]
  · simp [execute, h]
  · simp only [execute, h]
    norm_num
    split_ifs <;> rfl
  · simp only [execute, h]
    norm_num
    split_ifs <;> rfl
  · simp only [execute, h]
    norm_num
    split_ifs <;> rfl
  · simp [execute, h, setV]
  · simp [execute, h, setV]
  · simp only [execute, h]
    norm_num
    exact exec8_display op t
  · simp only [execute, h]
    norm_num
    split_ifs <;> rfl
  · simp [execute, h]
  · simp [execute, h]
  · simp [execute, h, setV]
  · exact absurd h hD
  · simp only [execute, h]
    norm_num
    exact execE_display op t
  · simp only [execute, h]
    norm_num
    exact execF_display op t

/-- PC stays even across the opcode switch provided the control-transfer
targets involved (1NNN, 2NNN, BNNN, the 00EE pop) are even. -/
theorem execute_PC_parity (cfg : Config) (rnd op : Nat) (t : Machine)
    (h0 : t.PC % 2 = 0)
    (h1 : (op >>> 12) &&& 0xF = 0x1 → (op &&& 0xFFF) % 2 = 0)
    (h2 : (op >>> 12) &&& 0xF = 0x2 → (op &&& 0xFFF) % 2 = 0)
    (hB : (op >>> 12) &&& 0xF = 0xB → (t.V 0 + (op &&& 0xFFF)) % 2 = 0)
    (hR : (op >>> 12) &&& 0xF = 0x0 → op &&& 0xFF = 0xEE → t.stack (t.sp - 1) % 2 = 0) :
    (execute cfg rnd op t).PC % 2 = 0 := by
  have hlt : (op >>> 12) &&& 0xF < 16 :=
    lt_of_le_of_lt Nat.and_le_right (by norm_num)
  have hcases : (op >>> 12) &&& 0xF = 0 ∨ (op >>> 12) &&& 0xF = 1
      ∨ (op >>> 12) &&& 0xF = 2 ∨ (op >>> 12) &&& 0xF = 3
      ∨ (op >>> 12) &&& 0xF = 4 ∨ (op >>> 12) &&& 0xF = 5
      ∨ (op >>> 12) &&& 0xF = 6 ∨ (op >>> 12) &&& 0xF = 7
      ∨ (op >>> 12) &&& 0xF = 8 ∨ (op >>> 12) &&& 0xF = 9
      ∨ (op >>> 12) &&& 0xF = 10 ∨ (op >>> 12) &&& 0xF = 11
      ∨ (op >>> 12) &&& 0xF = 12 ∨ (op >>> 12) &&& 0xF = 13
      ∨ (op >>> 12) &&& 0xF = 14 ∨ (op >>> 12) &&& 0xF = 15 := by omega
  rcases hcases with h|h|h|h|h|h|h|h|h|h|h|h|h|h|h|h
  · simp only [execute, h]
    norm_num
    simp only [exec0]
    split_ifs with hE hEE
    · dsimp only
      exact h0
    · dsimp only
      exact hR h hEE
    · exact h0
  · simp [execute, h]
    exact h1 h
  · simp [execute, h]
    exact h2 h
  · simp only [execute, h]
    norm_num
    split_ifs <;> (try dsimp only) <;> omega
  · simp only [execute, h]
    norm_num
    split_ifs <;> (try dsimp only) <;> omega
  · simp only [execute, h]
    norm_num
    split_ifs <;> (try dsimp only) <;> omega
  · simpa [execute, h, setV] using h0
  · simpa [execute, h, setV] using h0
  · simp only [execute, h]
    norm_num
    rw [exec8_PC]
    exact h0
  · simp only [execute, h]
    norm_num
    split_ifs <;> (try dsimp only) <;> omega
  · simpa [execute, h] using h0
  · simp [execute, h]
    have := hB h
    omega
  · simpa [execute, h, setV] using h0
  · simp only [execute, h]
    norm_num
    exact h0
  · simp only [execute, h]
    norm_num
    exact execE_PC op t h0
  · simp only [execute, h]
    norm_num
    exact execF_PC op t h0

/-- C10: for every pre-state and executed instruction whose opcode is
neither CLS (00E0) nor a draw (DXYN), the framebuffer after the
fetch-decode-execute step is identical to the framebuffer before it; only
CLS and DRW modify display memory. -/
theorem c10_display_only_cls_and_draw (cfg : Config) (rnd : Nat) (s : Machine)
    (hD : (fetchOp s >>> 12) &&& 0xF ≠ 0xD)
    (hC : ¬((fetchOp s >>> 12) &&& 0xF = 0x0 ∧ fetchOp s &&& 0xFF = 0xE0)) :
    (emulateInstruction cfg rnd s).display = s.display :=
  execute_display_eq cfg rnd (fetchOp s) { s with PC := (s.PC + 2) % 65536 } hD hC

/-- C10 witness: a concrete LD V3, 0x05 step leaves the framebuffer
unchanged. -/
theorem c10_witness :
    (emulateInstruction defaultConfig 0 c10state).display = c10state.display
    ∧ (fetchOp c10state >>> 12) &&& 0xF = 6 :=
  ⟨c10_display_only_cls_and_draw defaultConfig 0 c10state (by decide) (by decide), by decide⟩

/-- C6 amended: PC parity is preserved by a step provided the instruction
is not a 1NNN or 2NNN with odd NNN, not a BNNN with odd V0 + NNN, and not
a 00EE popping an odd address; arbitrary ROMs can still break parity by
jumping to an odd target. -/
theorem c6_amended (cfg : Config) (rnd : Nat) (s : Machine)
    (h0 : s.PC % 2 = 0)
    (h1 : (fetchOp s >>> 12) &&& 0xF = 0x1 → (fetchOp s &&& 0xFFF) % 2 = 0)
    (h2 : (fetchOp s >>> 12) &&& 0xF = 0x2 → (fetchOp s &&& 0xFFF) % 2 = 0)
    (hB : (fetchOp s >>> 12) &&& 0xF = 0xB → (s.V 0 + (fetchOp s &&& 0xFFF)) % 2 = 0)
    (hR : (fetchOp s >>> 12) &&& 0xF = 0x0 → fetchOp s &&& 0xFF = 0xEE →
      s.stack (s.sp - 1) % 2 = 0) :
    (emulateInstruction cfg rnd s).PC % 2 = 0 := by
  have ht : ({ s with PC := (s.PC + 2) % 65536 } : Machine).PC % 2 = 0 := by
    dsimp only
    omega
  exact execute_PC_parity cfg rnd (fetchOp s) _ ht h1 h2 hB hR

/-- C6 witness: parity is preserved across a concrete LD V3, 0x05 step. -/
theorem c6_amended_witness :
    (emulateInstruction defaultConfig 0 c10state).PC % 2 = 0 :=
  c6_amended defaultConfig 0 c10state (by decide) (by decide) (by decide) (by decide)
    (by decide)

end Chip8

namespace Chip8

/-- Replaying an appended event list is replaying the two parts in order. -/
theorem applyPixels_append (L1 L2 : List (Nat × Bool)) :
    ∀ st, applyPixels (L1 ++ L2) st = applyPixels L2 (applyPixels L1 st) := by
  induction L1 with
  | nil => intro st; rfl
  | cons pb rest ih =>
    intro st
    simp only [List.cons_append, applyPixels]
    exact ih _

/-- The inner draw loop is the replay of its event list. -/
theorem drawRow_eq_applyPixels (w sd Y : Nat) (fuel : Nat) :
    ∀ (X : Nat) (disp : Nat → Bool) (vf : Nat),
      drawRow w sd Y fuel X disp vf = applyPixels (rowPix w sd Y fuel X) (disp, vf) := by
  induction fuel with
  | zero => intro X disp vf; rfl
  | succ j ih =>
    intro X disp vf
    by_cases hX : X + 1 ≥ w
    · simp only [drawRow, rowPix, applyPixels, if_pos hX]
    · simp only [drawRow, rowPix, applyPixels, if_neg hX]
      exact ih (X + 1) _ _

/-- The outer draw loop is the replay of its event list. -/
theorem drawRows_eq_applyPixels (w h : Nat) (ram : Nat → Nat) (ogX : Nat) (n : Nat) :
    ∀ (addr Y : Nat) (disp : Nat → Bool) (vf : Nat),
      drawRows w h ram ogX n addr Y disp vf
        = applyPixels (rowsPix w h ram ogX n addr Y) (disp, vf) := by
  induction n with
  | zero => intro addr Y disp vf; rfl
  | succ m ih =>
    intro addr Y disp vf
    simp only [drawRows, rowsPix]
    rw [applyPixels_append, ← drawRow_eq_applyPixels]
    by_cases hY : Y + 1 ≥ h
    · simp only [if_pos hY, applyPixels]
    · simp only [if_neg hY]
      exact ih (addr + 1) (Y + 1) _ _

/-- An index that is never drawn carries bit false. -/
theorem bitAt_of_not_mem (q : Nat) : ∀ L : List (Nat × Bool), q ∉ keys L → bitAt L q = false := by
  intro L
  induction L with
  | nil => intro _; rfl
  | cons pb rest ih =>
    intro hq
    simp only [keys, List.map_cons, List.mem_cons] at hq
    push_neg at hq
    simp only [bitAt, if_neg hq.1]
    exact ih (by simpa [keys] using hq.2)

/-- With distinct indices, bitAt recovers the recorded bit of a member. -/
theorem bitAt_of_mem : ∀ (L : List (Nat × Bool)) (p : Nat) (b : Bool),
    (keys L).Nodup → (p, b) ∈ L → bitAt L p = b := by
  intro L
  induction L with
  | nil => intro p b _ h; simp at h
  | cons pb rest ih =>
    intro p b hnd hmem
    simp only [keys, List.map_cons, List.nodup_cons] at hnd
    rcases List.mem_cons.mp hmem with heq | hmem2
    · rw [← heq]
      simp [bitAt]
    · have hp : p ∈ keys rest := by
        simpa [keys] using List.mem_map_of_mem Prod.fst hmem2
      have hne : p ≠ pb.1 := by
        intro hpp
        exact hnd.1 (hpp ▸ hp)
      simp only [bitAt, if_neg hne]
      exact ih p b hnd.2 hmem2

/-- List.any only depends on the values of the predicate on members. -/
theorem any_congr_mem : ∀ (L : List (Nat × Bool)) (f g : Nat × Bool → Bool),
    (∀ pb ∈ L, f pb = g pb) → L.any f = L.any g := by
  intro L
  induction L with
  | nil => intro f g _; rfl
  | cons pb rest ih =>
    intro f g h
    simp only [List.any_cons]
    rw [h pb (List.mem_cons_self pb rest),
      ih f g (fun qb hqb => h qb (List.mem_cons_of_mem pb hqb))]

/-- With distinct indices, a replay XORs each pixel with its recorded bit. -/
theorem applyPixels_fst : ∀ (L : List (Nat × Bool)) (st : (Nat → Bool) × Nat),
    (keys L).Nodup → ∀ q, (applyPixels L st).1 q = xor (st.1 q) (bitAt L q) := by
  intro L
  induction L with
  | nil => intro st _ q; simp [applyPixels, bitAt]
  | cons pb rest ih =>
    intro st hnd q
    simp only [keys, List.map_cons, List.nodup_cons] at hnd
    simp only [applyPixels]
    rw [ih _ hnd.2 q]
    by_cases hq : q = pb.1
    · subst hq
      rw [bitAt_of_not_mem pb.1 rest (by simpa [keys] using hnd.1)]
      simp [updB, bitAt]
    · simp [updB, hq, bitAt]

/-- With distinct indices, a replay reports a collision exactly when some
recorded bit lands on a pixel that is on in the starting framebuffer. -/
theorem applyPixels_snd : ∀ (L : List (Nat × Bool)) (st : (Nat → Bool) × Nat),
    (keys L).Nodup →
    (applyPixels L st).2 = if L.any (fun pb => pb.2 && st.1 pb.1) then 1 else st.2 := by
  intro L
  induction L with
  | nil => intro st _; simp [applyPixels]
  | cons pb rest ih =>
    intro st hnd
    simp only [keys, List.map_cons, List.nodup_cons] at hnd
    simp only [applyPixels]
    rw [ih _ hnd.2]
    have hco : ∀ qb ∈ rest,
        (qb.2 && (updB st.1 pb.1 (xor (st.1 pb.1) pb.2)) qb.1) = (qb.2 && st.1 qb.1) := by
      intro qb hqb
      have hne : qb.1 ≠ pb.1 := by
        intro hqp
        exact hnd.1 (hqp ▸ (by simpa [keys] using List.mem_map_of_mem Prod.fst hqb))
      simp [updB, hne]
    rw [any_congr_mem rest _ _ hco]
    simp only [List.any_cons]
    by_cases hb : (pb.2 && st.1 pb.1) = true
    · simp [hb]
    · have hb2 : (pb.2 && st.1 pb.1) = false := by simpa using hb
      simp only [hb2, Bool.false_or, if_neg]
      simp

/-- Indices drawn in one row lie in that row of the framebuffer. -/
theorem rowPix_keys_bounds (w sd Y : Nat) :
    ∀ (fuel X : Nat), X < w → ∀ q ∈ keys (rowPix w sd Y fuel X),
      Y * w + X ≤ q ∧ q < Y * w + w := by
  intro fuel
  induction fuel with
  | zero => intro X hX q hq; simp [rowPix, keys] at hq
  | succ j ih =>
    intro X hX q hq
    by_cases hXw : X + 1 ≥ w
    · simp [rowPix, if_pos hXw, keys] at hq
      omega
    · simp only [rowPix, if_neg hXw, keys, List.map_cons, List.mem_cons] at hq
      rcases hq with rfl | hq
      · omega
      · have := ih (X + 1) (by omega) q hq
        omega

/-- Within a row the drawn indices are distinct (X strictly increases). -/
theorem rowPix_keys_nodup (w sd Y : Nat) :
    ∀ (fuel X : Nat), X < w → (keys (rowPix w sd Y fuel X)).Nodup := by
  intro fuel
  induction fuel with
  | zero => intro X hX; simp [rowPix, keys]
  | succ j ih =>
    intro X hX
    by_cases hXw : X + 1 ≥ w
    · simp [rowPix, if_pos hXw, keys]
    · simp only [rowPix, if_neg hXw, keys, List.map_cons]
      refine List.nodup_cons.mpr ⟨?_, ih (X + 1) (by omega)⟩
      intro hmem
      have := rowPix_keys_bounds w sd Y j (X + 1) (by omega) _ hmem
      omega

/-- All indices drawn from row Y on lie at or above Y * w. -/
theorem rowsPix_keys_lb (w h : Nat) (ram : Nat → Nat) (ogX : Nat) (hx : ogX < w) :
    ∀ (n addr Y : Nat), ∀ q ∈ keys (rowsPix w h ram ogX n addr Y), Y * w ≤ q := by
  intro n
  induction n with
  | zero => intro addr Y q hq; simp [rowsPix, keys] at hq
  | succ m ih =>
    intro addr Y q hq
    by_cases hY : Y + 1 ≥ h
    · simp only [rowsPix, if_pos hY, List.append_nil] at hq
      have := rowPix_keys_bounds w (ram addr) Y 8 ogX hx q hq
      omega
    · simp only [rowsPix, if_neg hY, keys, List.map_append, List.mem_append] at hq
      rcases hq with hq | hq
      · have := rowPix_keys_bounds w (ram addr) Y 8 ogX hx q hq
        omega
      · have := ih (addr + 1) (Y + 1) q hq
        have hw : (Y + 1) * w = Y * w + w := Nat.succ_mul Y w
        omega

/-- Across a whole sprite the drawn indices are distinct: rows occupy
disjoint index ranges and each row is duplicate-free. -/
theorem rowsPix_keys_nodup (w h : Nat) (ram : Nat → Nat) (ogX : Nat) (hx : ogX < w) :
    ∀ (n addr Y : Nat), (keys (rowsPix w h ram ogX n addr Y)).Nodup := by
  intro n
  induction n with
  | zero => intro addr Y; simp [rowsPix, keys]
  | succ m ih =>
    intro addr Y
    by_cases hY : Y + 1 ≥ h
    · simp only [rowsPix, if_pos hY, List.append_nil]
      exact rowPix_keys_nodup w (ram addr) Y 8 ogX hx
    · simp only [rowsPix, if_neg hY, keys, List.map_append]
      refine List.Nodup.append (rowPix_keys_nodup w (ram addr) Y 8 ogX hx)
        (ih (addr + 1) (Y + 1)) ?_
      intro q hq1 hq2
      have hb1 := rowPix_keys_bounds w (ram addr) Y 8 ogX hx q hq1
      have hb2 := rowsPix_keys_lb w h ram ogX hx m (addr + 1) (Y + 1) q hq2
      have hw : (Y + 1) * w = Y * w + w := Nat.succ_mul Y w
      omega

/-- C3 amended: executing the same draw twice (same RAM, sprite address,
height and wrapped start coordinates) leaves the framebuffer exactly as it
was before the first draw; the second draw sets V[0xF] to 1 if and only if
some visible (unclipped) set sprite bit lies over a pixel that was off
before the first draw, i.e. exactly when the first draw lit a pixel, not
for every sprite with a visible set bit. -/
theorem c3_amended (ram : Nat → Nat) (addr n X0 Y0 : Nat) (disp : Nat → Bool)
    (hX : X0 < 64) :
    (∀ q, (drawRows 64 32 ram X0 n addr Y0
        ((drawRows 64 32 ram X0 n addr Y0 disp 0).1) 0).1 q = disp q)
    ∧ ((drawRows 64 32 ram X0 n addr Y0
        ((drawRows 64 32 ram X0 n addr Y0 disp 0).1) 0).2 = 1
      ↔ (rowsPix 64 32 ram X0 n addr Y0).any (fun pb => pb.2 && !(disp pb.1)) = true) := by
  have hnd := rowsPix_keys_nodup 64 32 ram X0 hX n addr Y0
  have h1 : drawRows 64 32 ram X0 n addr Y0 disp 0
      = applyPixels (rowsPix 64 32 ram X0 n addr Y0) (disp, 0) :=
    drawRows_eq_applyPixels 64 32 ram X0 n addr Y0 disp 0
  have hd1 : ∀ q, (applyPixels (rowsPix 64 32 ram X0 n addr Y0) (disp, 0)).1 q
      = xor (disp q) (bitAt (rowsPix 64 32 ram X0 n addr Y0) q) :=
    applyPixels_fst (rowsPix 64 32 ram X0 n addr Y0) (disp, 0) hnd
  have h2 : drawRows 64 32 ram X0 n addr Y0
        ((applyPixels (rowsPix 64 32 ram X0 n addr Y0) (disp, 0)).1) 0
      = applyPixels (rowsPix 64 32 ram X0 n addr Y0)
        ((applyPixels (rowsPix 64 32 ram X0 n addr Y0) (disp, 0)).1, 0) :=
    drawRows_eq_applyPixels 64 32 ram X0 n addr Y0 _ 0
  constructor
  · intro q
    rw [h1, h2, applyPixels_fst _ _ hnd q, hd1 q]
    cases disp q <;> cases bitAt (rowsPix 64 32 ram X0 n addr Y0) q <;> rfl
  · rw [h1, h2, applyPixels_snd _ _ hnd]
    have hco : ∀ pb ∈ rowsPix 64 32 ram X0 n addr Y0,
        (pb.2 && (applyPixels (rowsPix 64 32 ram X0 n addr Y0) (disp, 0)).1 pb.1)
          = (pb.2 && !(disp pb.1)) := by
      intro pb hpb
      rw [hd1 pb.1, bitAt_of_mem (rowsPix 64 32 ram X0 n addr Y0) pb.1 pb.2 hnd hpb]
      cases hb : pb.2 <;> cases hd : disp pb.1 <;> rfl
    rw [any_congr_mem _ _ _ hco]
    split_ifs with ha
    · simp [ha]
    · simp [ha]

/-- C3 counterexample: on an all-lit framebuffer, drawing sprite byte 0x80
(one visible set bit) at (0,0) twice restores the framebuffer, but the
second draw ends with V[0xF] = 0, not the claimed 1: the first draw turned
the pixel off, so the second draw sees no collision. -/
theorem c3_double_draw_cex :
    (emulateInstruction defaultConfig 0 (emulateInstruction defaultConfig 0 c3state)).V 0xF = 0
    ∧ c3state.ram c3state.I = 0x80
    ∧ (emulateInstruction defaultConfig 0 (emulateInstruction defaultConfig 0 c3state)).display 0
        = c3state.display 0
    ∧ (emulateInstruction defaultConfig 0 c3state).V 0xF = 1 := by decide

/-- C3 witness: the amended statement at a concrete one-row sprite over a
dark framebuffer, where the second draw does collide. -/
theorem c3_amended_witness :
    (drawRows 64 32 (fun _ => 0x80) 0 1 0 0
        ((drawRows 64 32 (fun _ => 0x80) 0 1 0 0 (fun _ => false) 0).1) 0).1 5 = false
    ∧ (drawRows 64 32 (fun _ => 0x80) 0 1 0 0
        ((drawRows 64 32 (fun _ => 0x80) 0 1 0 0 (fun _ => false) 0).1) 0).2 = 1 :=
  ⟨(c3_amended (fun _ => 0x80) 0 1 0 0 (fun _ => false) (by decide)).1 5,
   ((c3_amended (fun _ => 0x80) 0 1 0 0 (fun _ => false) (by decide)).2).mpr (by decide)⟩

end Chip8
